import Mathlib

/-!
Verification development for the youtube-subscriptions terminal feed browser
(src/main.rs). The Rust code is shallowly embedded: strings are handled
through their character lists (exact for the ASCII data the program deals
with: ISO-8601 timestamps, URLs, JSON), in-place mutation is made explicit
by returning the updated value, and every Rust operation that can panic or
return an error is embedded as an Option / explicit result constructor,
with none modelling a panic.
-/

namespace YTS

/-- Byte-lexicographic order on strings, modelled on character lists via the
Unicode scalar value. This models Rust String cmp, and agrees with it exactly
on ASCII data such as the ISO-8601 timestamps stored in the published field. -/
def lexLe : List Char → List Char → Bool
  | [], _ => true
  | _ :: _, [] => false
  | a :: as, b :: bs =>
    if a.toNat = b.toNat then lexLe as bs else decide (a.toNat < b.toNat)

theorem lexLe_total : ∀ a b : List Char, lexLe a b = true ∨ lexLe b a = true
  | [], _ => Or.inl rfl
  | _ :: _, [] => Or.inr rfl
  | a :: as, b :: bs => by
    by_cases h : a.toNat = b.toNat
    · rcases lexLe_total as bs with ih | ih
      · exact Or.inl (by simp [lexLe, h, ih])
      · exact Or.inr (by simp [lexLe, h.symm, ih])
    · rcases Nat.lt_or_ge a.toNat b.toNat with hlt | hge
      · exact Or.inl (by simp [lexLe, h, hlt])
      · have hlt : b.toNat < a.toNat := Nat.lt_of_le_of_ne hge (Ne.symm h)
        exact Or.inr (by simp [lexLe, Ne.symm h, hlt])

theorem lexLe_trans :
    ∀ a b c : List Char, lexLe a b = true → lexLe b c = true → lexLe a c = true
  | [], _, _, _, _ => rfl
  | a :: as, [], _, h1, _ => by simp [lexLe] at h1
  | a :: as, b :: bs, [], _, h2 => by simp [lexLe] at h2
  | a :: as, b :: bs, c :: cs, h1, h2 => by
    by_cases hab : a.toNat = b.toNat
    · by_cases hbc : b.toNat = c.toNat
      · have hac : a.toNat = c.toNat := hab.trans hbc
        simp [lexLe, hab] at h1
        simp [lexLe, hbc] at h2
        simp [lexLe, hac]
        exact lexLe_trans as bs cs h1 h2
      · simp [lexLe, hbc] at h2
        have hac : a.toNat < c.toNat := hab ▸ h2
        simp [lexLe, Nat.ne_of_lt hac, hac]
    · simp [lexLe, hab] at h1
      by_cases hbc : b.toNat = c.toNat
      · have hac : a.toNat < c.toNat := hbc ▸ h1
        simp [lexLe, Nat.ne_of_lt hac, hac]
      · simp [lexLe, hbc] at h2
        have hac : a.toNat < c.toNat := Nat.lt_trans h1 h2
        simp [lexLe, Nat.ne_of_lt hac, hac]

/-- Substring test on character lists; models Rust str contains (byte-level
substring search, identical on the character level for ASCII data). -/
def containsSub : List Char → List Char → Bool
  | [], pat => pat.isEmpty
  | c :: t, pat => pat.isPrefixOf (c :: t) || containsSub t pat

/-- Splitting on a one-character separator, keeping empty pieces; models Rust
str split with a one-character pattern. The result is always non-empty. -/
def splitChars (sep : Char) : List Char → List (List Char)
  | [] => [[]]
  | c :: cs =>
    if c = sep then [] :: splitChars sep cs
    else
      match splitChars sep cs with
      | [] => [[c]]
      | w :: ws => (c :: w) :: ws

/-- One feed item, as in struct Video of src/main.rs. -/
structure Video where
  channel : String
  title : String
  thumbnail : String
  url : String
  published : String
  description : String
deriving DecidableEq

/-- Comparison used by the sort in to_show_videos:
sort_by(|a, b| b.published.cmp(&a.published)), that is, a comes no later
than b when the published field of b is at most that of a (descending,
newest first). -/
def vidLe (a b : Video) : Prop := lexLe b.published.data a.published.data = true

instance vidLe.decRel : DecidableRel vidLe := fun _ _ =>
  inferInstanceAs (Decidable (_ = true))

instance vidLe.isTotal : IsTotal Video vidLe :=
  ⟨fun a b => lexLe_total b.published.data a.published.data⟩

instance vidLe.isTrans : IsTrans Video vidLe :=
  ⟨fun _ _ _ h1 h2 => lexLe_trans _ _ _ h2 h1⟩

/-- The in-place stable sort videos.sort_by(|a, b| b.published.cmp(&a.published))
of to_show_videos, newest first. Rust uses a stable merge sort; insertion
sort is likewise stable, so the embedded result coincides. -/
def sort_by_published_desc (videos : List Video) : List Video :=
  List.insertionSort vidLe videos

/-- The filter predicate of to_show_videos:
video.title.contains(filter) || video.channel.contains(filter). -/
def filter_matches (filter : String) (v : Video) : Bool :=
  containsSub v.title.data filter.data || containsSub v.channel.data filter.data

/-- The filtered, newest-first-sorted sequence that to_show_videos slices. -/
def filtered_videos (videos : List Video) (filter : String) : List Video :=
  (sort_by_published_desc videos).filter (filter_matches filter)

/-- Embedding of fn to_show_videos. The first component is the caller video
list after the in-place sort (the function mutates it through the &mut
borrow); the second is the returned window, or none when the slice
expression &filtered_videos[start..new_end] panics, which happens exactly
when start exceeds new_end (Rust slice ranges require
start <= end <= length, and new_end = min(end, length)). -/
def to_show_videos (videos : List Video) (start e : Nat) (filter : String) :
    List Video × Option (List Video) :=
  (sort_by_published_desc videos,
    if start ≤ min e (filtered_videos videos filter).length then
      some ((((filtered_videos videos filter).drop start).take
        (min e (filtered_videos videos filter).length - start)).reverse)
    else none)

/-- One entry element of a fetched feed document, holding the strings that
get_channel_videos extracts with get_value; get_value returns the empty
string when the addressed node is absent, so every field is total. -/
structure FeedEntry where
  title : String
  thumbnail : String
  url : String
  published : String
  description : String
deriving DecidableEq

/-- What fetching one channel URL can observe, as distinguished by
fn get_channel_videos: a failed HTTP response (response.ok() false), a
response body that the XML parser rejects, or a parsed feed document with
its title and entry list (an empty feed is a feed with no entries; an
XPath evaluation error or non-nodeset result also yields no entries and is
subsumed by an empty entry list). -/
inductive SourceDoc where
  | httpFail
  | malformed
  | feed (title : String) (entries : List FeedEntry)
deriving DecidableEq

/-- Construction of one Video record inside get_channel_videos: the feed
title is denormalized into the channel field of every entry. -/
def entry_to_video (feedTitle : String) (e : FeedEntry) : Video :=
  { channel := feedTitle
    title := e.title
    thumbnail := e.thumbnail
    url := e.url
    published := e.published
    description := e.description }

/-- Embedding of fn get_channel_videos. none models the panic of
parser::parse(contents).expect("failed to parse XML") on a malformed
document; a failed HTTP request returns an empty vector. -/
def get_channel_videos : SourceDoc → Option (List Video)
  | SourceDoc.httpFail => some []
  | SourceDoc.malformed => none
  | SourceDoc.feed t es => some (es.map (entry_to_video t))

/-- Embedding of the aggregation loop of fn get_videos: the subscription
URLs are fanned out with par_iter().flat_map(get_channel_videos) and
collected in order; docs is the document each URL resolves to. A panic in
any one task (a malformed feed) propagates out of the parallel collect, so
the whole aggregation is none as soon as one source is malformed. -/
def get_videos : List SourceDoc → Option (List Video)
  | [] => some []
  | d :: ds =>
    match get_channel_videos d, get_videos ds with
    | some vs, some rest => some (vs ++ rest)
    | _, _ => none

/-- Per-source contribution to a successful aggregation. -/
def source_videos : SourceDoc → List Video
  | SourceDoc.httpFail => []
  | SourceDoc.malformed => []
  | SourceDoc.feed t es => es.map (entry_to_video t)

/-- State of the cache file as fn load distinguishes it: missing
(fs::metadata fails), existing but unreadable (metadata succeeds,
fs::read_to_string fails), or readable with some content, which serde
either deserializes (some videos) or rejects (none, making the unwrap in
load panic). -/
inductive CacheFile where
  | missing
  | unreadable
  | stored (content : Option (List Video))
deriving DecidableEq

/-- Outcome of the body of fn load: the value returned (Some videos, None,
or a panic inside load), the cache file afterwards, and whether an
aggregation pass (network fetch of the feed sources) ran. -/
inductive LoadResult where
  | ok (videos : List Video)
  | noneRes
  | panicked
deriving DecidableEq

structure LoadOutcome where
  result : LoadResult
  cache : CacheFile
  fetched : Bool
deriving DecidableEq

/-- Embedding of fn load. subs is the subscription_manager read
(none models the Err branch of get_subscriptions_xml, mapped to None);
fetchRes is what the aggregation pass would produce, none modelling a
panic inside get_videos (for instance a malformed feed, claim C1 territory).
The code refreshes when reload is set or fs::metadata on the cache path
fails; it then rewrites the cache and re-reads it. Otherwise the cache
file is read: a read error yields None, content that serde rejects panics
at the unwrap, and valid content is returned as Some. -/
def load (reload : Bool) (subs : Option String) (cache : CacheFile)
    (fetchRes : Option (List Video)) : LoadOutcome :=
  match subs with
  | none => ⟨LoadResult.noneRes, cache, false⟩
  | some _ =>
    if reload = true ∨ cache = CacheFile.missing then
      match fetchRes with
      | none => ⟨LoadResult.panicked, cache, true⟩
      | some vs => ⟨LoadResult.ok vs, CacheFile.stored (some vs), true⟩
    else
      match cache with
      | CacheFile.missing => ⟨LoadResult.noneRes, cache, false⟩
      | CacheFile.unreadable => ⟨LoadResult.noneRes, cache, false⟩
      | CacheFile.stored none => ⟨LoadResult.panicked, cache, false⟩
      | CacheFile.stored (some vs) => ⟨LoadResult.ok vs, cache, false⟩

/-- The callers of load in run and hard_reload immediately unwrap its
result; only an ok result survives, anything else is a panic (none). -/
def load_unwrap (o : LoadOutcome) : Option (List Video) :=
  match o.result with
  | LoadResult.ok vs => some vs
  | _ => none

/-- The mutable fields of struct YoutubeSubscribtions that the embedded
operations touch. -/
structure UiState where
  n : Nat
  start : Nat
  filter : String
  i : Nat
  toshow : List Video
  videos : List Video
deriving DecidableEq

/-- Embedding of fn move_page. lines is the current get_lines() value
(terminal height minus one). The catalog is sorted in place by the
to_show_videos call; none models the slice panic inside to_show_videos. -/
def move_page (lines : Nat) (s : UiState) (direction : Int) : Option UiState :=
  let n := lines
  let start :=
    if direction = 1 then
      if s.start + 2 * n < s.videos.length then s.start + n else s.start
    else if direction = 0 then 0
    else if direction = -1 then
      if n > s.start then 0 else s.start - n
    else s.start
  let res := to_show_videos s.videos start (start + n) s.filter
  (res.2).map (fun ts =>
    { n := n, start := start, filter := s.filter, i := 0,
      toshow := ts, videos := res.1 })

/-- fn soft_reload: move_page with direction 0. -/
def soft_reload (lines : Nat) (s : UiState) : Option UiState :=
  move_page lines s 0

/-- Embedding of fn hard_reload: the catalog is replaced by
load(true, ..).unwrap() (freshLoad, none modelling a failed unwrap or a
panic during aggregation) and soft_reload re-derives the view. -/
def hard_reload (lines : Nat) (s : UiState) (freshLoad : Option (List Video)) :
    Option UiState :=
  match freshLoad with
  | none => none
  | some vs => soft_reload lines { s with videos := vs }

/-- Embedding of fn get_id: the last segment of url split on a slash,
then the part of that segment before the first question mark. -/
def get_id (v : Video) : Option (Option String) :=
  ((splitChars '/' v.url.data).getLast?).map (fun page =>
    ((splitChars '?' page).head?).map String.mk)

/-- The list of videos iterated by fn download after its hard_reload:
self.videos.videos.iter().rev().take(take), with the catalog having just
been sorted newest-first in place by the soft_reload inside hard_reload. -/
def download_scan (lines : Nat) (s : UiState) (freshLoad : Option (List Video))
    (take_ : Nat) : Option (List Video) :=
  (hard_reload lines s freshLoad).map (fun s2 => (s2.videos.reverse).take take_)

/-- Embedding of fn download: for each scanned video with an id, that id is
passed to download_video. The returned list is the sequence of downloaded
identifiers. -/
def download (lines : Nat) (s : UiState) (freshLoad : Option (List Video))
    (take_ : Nat) : Option (List String) :=
  (download_scan lines s freshLoad take_).map (fun vs =>
    vs.filterMap (fun v =>
      match get_id v with
      | some (some id) => some id
      | _ => none))

/-- Digit-sequence value, none on a non-digit; helper for parse_usize. -/
def digitsVal : Nat → List Char → Option Nat
  | acc, [] => some acc
  | acc, c :: cs =>
    if c.isDigit then digitsVal (acc * 10 + (c.toNat - 48)) cs else none

/-- Model of str::parse::<usize> as used in main: an optional leading plus
sign followed by at least one ASCII digit (machine-width overflow is not
modelled; the program only meaningfully uses small counts). -/
def parse_usize (s : String) : Option Nat :=
  match s.data with
  | '+' :: ds => if ds.isEmpty then none else digitsVal 0 ds
  | ds => if ds.isEmpty then none else digitsVal 0 ds

/-- What fn main decides to run. -/
inductive MainAction where
  | download (n : Nat)
  | interactive
deriving DecidableEq

/-- Embedding of the argument dispatch in fn main: exactly two argv entries
whose second parses as usize run the non-interactive download path;
everything else runs the interactive session. -/
def main_dispatch (args : List String) : MainAction :=
  match args with
  | [_, a] =>
    match parse_usize a with
    | some n => MainAction.download n
    | none => MainAction.interactive
  | _ => MainAction.interactive

/-- Key handling for the selection-down keys of fn run. The arm
Char('j') | Char('l') | Down sets i to i + 1 through jump, and the loop
trailer then reduces i modulo n (the page height, self.n). In Rust i % 0
panics; the embedding keeps Nat semantics (x % 0 = x), and every theorem
about it assumes 0 < n. -/
def key_down (s : UiState) : UiState :=
  { s with i := (s.i + 1) % s.n }

/-- UTF-8 byte length of a character list. -/
def utf8Len (cs : List Char) : Nat :=
  List.foldl (fun n c => n + c.utf8Size) 0 cs

/-- Whether byte position p is a character boundary of the UTF-8 encoding
of cs (positions 0 and the total length included). -/
def isBoundary : List Char → Nat → Bool
  | [], p => p = 0
  | c :: cs, p =>
    if p = 0 then true
    else if p < c.utf8Size then false
    else isBoundary cs (p - c.utf8Size)

/-- Characters of the byte range [b, e) of cs, assuming b and e are
boundaries; helper for byteSlice. -/
def dropBytes : List Char → Nat → List Char
  | cs, 0 => cs
  | [], _ => []
  | c :: cs, n => dropBytes cs (n - c.utf8Size)

def takeBytes : List Char → Nat → List Char
  | _, 0 => []
  | [], _ => []
  | c :: cs, n => c :: takeBytes cs (n - c.utf8Size)

/-- Model of the Rust byte-range index &s[b..e]: none models the panic when
the range is not within bounds or b or e is not a character boundary. -/
def byteSlice (cs : List Char) (b e : Nat) : Option (List Char) :=
  if b ≤ e ∧ e ≤ utf8Len cs ∧ isBoundary cs b = true ∧ isBoundary cs e = true then
    some (takeBytes (dropBytes cs b) (e - b))
  else none

/-- The date cell print_videos computes for one video:
video.published.split("T") gives a non-empty vector, element 0 is indexed
with the byte range [5..10]. none models the index panic. -/
def date_cell (published : String) : Option String :=
  let seg := ((splitChars 'T' published.data).headD [])
  (byteSlice seg 5 10).map String.mk

/-- The date column of fn print_videos over a window: the rows are printed
iterating toshow.iter().rev(), and the whole render panics (none) as soon
as one row panics. Only the date extraction, the partial step of the
format, is modelled; the remaining formatting of a row is total in the
fields it uses. -/
def print_videos_dates : List Video → Option (List String)
  | [] => some []
  | v :: vs =>
    match date_cell v.published, print_videos_dates vs with
    | some d, some ds => some (d :: ds)
    | _, _ => none

/-- fn print_videos iterates the window in reverse. -/
def print_videos_render (toshow : List Video) : Option (List String) :=
  print_videos_dates toshow.reverse

/-! Sample data used by the concrete instantiations below. -/

def v01 : Video :=
  { channel := "chan one", title := "alpha", thumbnail := ""
    url := "https://www.youtube.com/v/aaa?version=3"
    published := "2021-01-01T10:00:00+00:00", description := "" }

def v02 : Video :=
  { channel := "chan two", title := "beta", thumbnail := ""
    url := "https://www.youtube.com/v/bbb?version=3"
    published := "2021-01-02T10:00:00+00:00", description := "" }

def v03 : Video :=
  { channel := "chan three", title := "gamma", thumbnail := ""
    url := "https://www.youtube.com/v/ccc?version=3"
    published := "2021-01-03T10:00:00+00:00", description := "" }

def e1 : FeedEntry :=
  { title := "t1", thumbnail := "th1", url := "https://www.youtube.com/v/ddd?version=3"
    published := "2021-01-04T10:00:00+00:00", description := "d1" }

/-- The session value constructed at the top of fn main. -/
def st0 : UiState :=
  { n := 0, start := 0, filter := "", i := 0, toshow := [], videos := [] }

/-- A reachable browsing state: page height five, a filtered window of two
rows, selection on the second row. -/
def st4 : UiState :=
  { n := 5, start := 0, filter := "", i := 1, toshow := [v01, v02],
    videos := [v01, v02] }

/-! Claim theorems. -/

/-- C1, counterexample: a source whose document fails to parse does not
contribute an empty sequence; the parse panic propagates, so aggregating
two sources, one good and one malformed, is a failure (none) instead of
the union of the one good source. -/
theorem C1_counterexample :
    get_channel_videos (SourceDoc.feed "chan" [e1]) =
      some [entry_to_video "chan" e1] ∧
    get_videos [SourceDoc.feed "chan" [e1], SourceDoc.malformed] = none ∧
    get_videos [SourceDoc.feed "chan" [e1], SourceDoc.malformed] ≠
      some [entry_to_video "chan" e1] := by
  decide

/-- C1, amended: HTTP failure and an empty feed yield an empty sequence
from that source and no propagated failure, so aggregation over sources
none of which is malformed returns the concatenation of the per-source
entries; a malformed document, however, panics (the claim held only for
the HTTP-failure and empty-feed cases). -/
theorem C1_amended : ∀ docs : List SourceDoc,
    (∀ d ∈ docs, d ≠ SourceDoc.malformed) →
    get_videos docs = some ((docs.map source_videos).flatten) := by
  intro docs h
  induction docs with
  | nil => rfl
  | cons d ds ih =>
    have hd : d ≠ SourceDoc.malformed := h d (List.mem_cons_self d ds)
    have hds := ih (fun x hx => h x (List.mem_cons_of_mem d hx))
    cases d with
    | httpFail => simp [get_videos, get_channel_videos, hds, source_videos]
    | malformed => exact absurd rfl hd
    | feed t es => simp [get_videos, get_channel_videos, hds, source_videos]

/-- C1, witness for the amended statement at a concrete input. -/
theorem C1_witness :
    get_videos [SourceDoc.feed "chan" [e1], SourceDoc.httpFail] =
      some (([SourceDoc.feed "chan" [e1], SourceDoc.httpFail].map
        source_videos).flatten) :=
  C1_amended [SourceDoc.feed "chan" [e1], SourceDoc.httpFail] (by decide)

/-- C7: with the catalog published 03, 01, 02 and an empty filter, the
window of size two starting at zero is the 02 entry then the 03 entry. -/
theorem C7_scenario : (to_show_videos [v03, v01, v02] 0 2 "").2 =
    some [v02, v03] := by
  decide

/-- C3, counterexample: with one matching entry, start 2 and end 3 the
filtered sequence has length 1 <= start, yet the result is not the empty
window: the slice bounds are 2..1 and the slicing panics (none). -/
theorem C3_counterexample :
    (filtered_videos [v01] "").length ≤ 2 ∧
    (to_show_videos [v01] 2 3 "").2 = none ∧
    (to_show_videos [v01] 2 3 "").2 ≠ some [] := by
  decide

/-- C3, amended: when start is at least the filtered length, the result is
the empty window exactly when start equals the filtered length and start
is at most end; for any larger start (or an end below start) the slice
bounds are invalid and the call fails instead of returning empty. -/
theorem C3_amended : ∀ (vs : List Video) (f : String) (start e : Nat),
    (filtered_videos vs f).length ≤ start →
    (to_show_videos vs start e f).2 =
      if start = (filtered_videos vs f).length ∧ start ≤ e then some []
      else none := by
  intro vs f start e h
  simp only [to_show_videos]
  by_cases h1 : start ≤ min e (filtered_videos vs f).length
  · have h2 : start = (filtered_videos vs f).length :=
      Nat.le_antisymm (Nat.le_trans h1 (Nat.min_le_right _ _)) h
    have h3 : start ≤ e := Nat.le_trans h1 (Nat.min_le_left _ _)
    rw [if_pos h1, if_pos ⟨h2, h3⟩]
    have hdrop : (filtered_videos vs f).drop start = [] :=
      List.drop_eq_nil_of_le h
    rw [hdrop]
    simp
  · rw [if_neg h1, if_neg ?_]
    rintro ⟨h2, h3⟩
    exact h1 (Nat.le_min.mpr ⟨h3, Nat.le_of_eq h2⟩)

/-- C3, witness: start equal to the filtered length with a large enough
end yields the empty window. -/
theorem C3_witness :
    (filtered_videos [v01] "").length ≤ 1 ∧
    (to_show_videos [v01] 1 5 "").2 = some [] := by
  have h := C3_amended [v01] "" 1 5 (by decide)
  refine ⟨by decide, ?_⟩
  rw [h]
  decide

/-- C8: whenever the slice succeeds, the window has at most window-size
entries and each of them lies in the filtered sorted sequence at or after
position start. -/
theorem C8_pagination_bound : ∀ (vs : List Video) (f : String)
    (start w : Nat) (r : List Video),
    (to_show_videos vs start (start + w) f).2 = some r →
    r.length ≤ w ∧ ∀ v ∈ r, v ∈ (filtered_videos vs f).drop start := by
  intro vs f start w r h
  simp only [to_show_videos] at h
  by_cases h1 : start ≤ min (start + w) (filtered_videos vs f).length
  · rw [if_pos h1] at h
    cases h
    constructor
    · simp only [List.length_reverse, List.length_take]
      have := Nat.min_le_left (start + w) (filtered_videos vs f).length
      omega
    · intro v hv
      rw [List.mem_reverse] at hv
      exact List.take_subset _ _ hv
  · rw [if_neg h1] at h
    cases h

/-- C8, witness at a concrete window. -/
theorem C8_witness :
    [v02].length ≤ 1 ∧ ∀ v ∈ [v02], v ∈ (filtered_videos [v03, v01, v02] "").drop 1 :=
  C8_pagination_bound [v03, v01, v02] "" 1 1 [v02] (by decide)

/-- C9: deriving the window is not side-effect-free. The catalog list a
to_show_videos call leaves behind is a permutation of the old one, sorted
with the published field non-increasing, and every successful move_page
(hence every navigation, filter, reload and the download path) replaces
the session catalog by that sorted list. -/
theorem C9_inplace_sort :
    (∀ (vs : List Video) (start e : Nat) (f : String),
      ((to_show_videos vs start e f).1).Perm vs ∧
      List.Sorted vidLe ((to_show_videos vs start e f).1)) ∧
    (∀ (lines : Nat) (s : UiState) (d : Int) (s2 : UiState),
      move_page lines s d = some s2 →
      s2.videos = sort_by_published_desc s.videos ∧ s2.videos.Perm s.videos) := by
  constructor
  · intro vs start e f
    exact ⟨List.perm_insertionSort vidLe vs,
      List.sorted_insertionSort vidLe vs⟩
  · intro lines s d s2 h
    simp only [move_page, Option.map_eq_some'] at h
    obtain ⟨ts, _, heq⟩ := h
    subst heq
    exact ⟨rfl, List.perm_insertionSort vidLe s.videos⟩

/-- C9, witness: move_page with direction 0 on a concrete state sorts the
catalog in place. -/
theorem C9_witness :
    ({ n := 5, start := 0, filter := "", i := 0, toshow := [v01, v02],
       videos := [v02, v01] } : UiState).videos =
      sort_by_published_desc st4.videos ∧
    ({ n := 5, start := 0, filter := "", i := 0, toshow := [v01, v02],
       videos := [v02, v01] } : UiState).videos.Perm st4.videos :=
  C9_inplace_sort.2 5 st4 0 _ (by decide)

/-- Helper: a successful download path always scans the reversed sorted
catalog truncated to the requested count. -/
theorem download_scan_eq (lines : Nat) (s : UiState) (vs : List Video)
    (take_ : Nat) :
    download_scan lines s (some vs) take_ =
      some (((sort_by_published_desc vs).reverse).take take_) := by
  simp [download_scan, hard_reload, soft_reload, move_page, to_show_videos,
    Nat.zero_le]

/-- C2, counterexample: after the forced refresh the catalog is sorted
newest first and download iterates it reversed, so with two entries and
count one the single downloaded identifier is that of the older entry
(aaa, published 01), not of the most recently published one (bbb,
published 02). -/
theorem C2_counterexample :
    download 5 st0 (some [v02, v01]) 1 = some ["aaa"] ∧
    download 5 st0 (some [v02, v01]) 1 ≠ some ["bbb"] ∧
    vidLe v02 v01 ∧ v01.published ≠ v02.published := by
  decide

/-- C2, amended: a single numeric argument N force-refreshes and then
downloads the N oldest entries of the refreshed catalog (the N least
published_at values, in ascending published order), then exits without
the interactive UI. The scanned list has length min N catalog-size, is
ascending by published, and each scanned entry is published no later than
every entry left out. -/
theorem C2_amended :
    (∀ (p a : String) (n : Nat), parse_usize a = some n →
      main_dispatch [p, a] = MainAction.download n) ∧
    (∀ (lines : Nat) (s : UiState) (vs : List Video) (take_ : Nat)
      (ts : List Video),
      download_scan lines s (some vs) take_ = some ts →
      ts.length = min take_ vs.length ∧
      List.Pairwise (fun a b => vidLe b a) ts ∧
      ∃ rest, (ts ++ rest).Perm vs ∧ ∀ v ∈ ts, ∀ w ∈ rest, vidLe w v) := by
  constructor
  · intro p a n h
    simp [main_dispatch, h]
  · intro lines s vs take_ ts h
    rw [download_scan_eq] at h
    cases h
    have hsorted : List.Pairwise vidLe (sort_by_published_desc vs) :=
      List.sorted_insertionSort vidLe vs
    have hasc : List.Pairwise (fun a b => vidLe b a)
        (sort_by_published_desc vs).reverse :=
      List.pairwise_reverse.mpr hsorted
    have hlen : (sort_by_published_desc vs).reverse.length = vs.length := by
      rw [List.length_reverse]
      exact (List.perm_insertionSort vidLe vs).length_eq
    refine ⟨?_, ?_, ?_⟩
    · rw [List.length_take, hlen]
    · exact List.Pairwise.sublist (List.take_sublist _ _) hasc
    · refine ⟨(sort_by_published_desc vs).reverse.drop take_, ?_, ?_⟩
      · rw [List.take_append_drop]
        exact (List.reverse_perm _).trans (List.perm_insertionSort vidLe vs)
      · have happ := List.take_append_drop take_
          (sort_by_published_desc vs).reverse
        have hpw : List.Pairwise (fun a b => vidLe b a)
            ((sort_by_published_desc vs).reverse.take take_ ++
             (sort_by_published_desc vs).reverse.drop take_) := by
          rw [happ]; exact hasc
        exact (List.pairwise_append.mp hpw).2.2

/-- C2, witness for the amended statement. -/
theorem C2_witness :
    main_dispatch ["prog", "2"] = MainAction.download 2 ∧
    ([v01].length = min 1 [v02, v01].length ∧
      List.Pairwise (fun a b => vidLe b a) [v01] ∧
      ∃ rest, ([v01] ++ rest).Perm [v02, v01] ∧
        ∀ v ∈ [v01], ∀ w ∈ rest, vidLe w v) :=
  ⟨C2_amended.1 "prog" "2" 2 (by decide),
   C2_amended.2 5 st0 [v02, v01] 1 [v01] (by decide)⟩

/-- C4, counterexample: page height five with a visible window of two rows
and the selection on the last row; the down keys move the selection to
index 2, past the window, instead of wrapping to 0 modulo the window
length. -/
theorem C4_counterexample :
    0 < st4.toshow.length ∧ st4.i < st4.toshow.length ∧
    (key_down st4).i = 2 ∧ (st4.i + 1) % st4.toshow.length = 0 ∧
    (key_down st4).i ≠ (st4.i + 1) % st4.toshow.length := by
  decide

/-- C4, amended: j, l and Down move the selection down by one wrapping
modulo self.n, the page height, not the visible window length; the other
state fields are untouched. -/
theorem C4_amended : ∀ s : UiState, 0 < s.n →
    (key_down s).i = (s.i + 1) % s.n ∧
    (key_down s).i < s.n ∧
    (s.i + 1 < s.n → (key_down s).i = s.i + 1) ∧
    (s.i + 1 = s.n → (key_down s).i = 0) ∧
    (key_down s).n = s.n ∧ (key_down s).start = s.start ∧
    (key_down s).toshow = s.toshow ∧ (key_down s).videos = s.videos := by
  intro s h
  refine ⟨rfl, Nat.mod_lt _ h, ?_, ?_, rfl, rfl, rfl, rfl⟩
  · intro hlt
    simp [key_down, Nat.mod_eq_of_lt hlt]
  · intro heq
    simp [key_down, heq]

/-- C4, witness for the amended statement at the concrete state. -/
theorem C4_witness :
    (key_down st4).i = (st4.i + 1) % st4.n ∧
    (key_down st4).i < st4.n ∧
    (st4.i + 1 < st4.n → (key_down st4).i = st4.i + 1) ∧
    (st4.i + 1 = st4.n → (key_down st4).i = 0) ∧
    (key_down st4).n = st4.n ∧ (key_down st4).start = st4.start ∧
    (key_down st4).toshow = st4.toshow ∧ (key_down st4).videos = st4.videos :=
  C4_amended st4 (by decide)

/-- C5, counterexample: with the subscription list readable and a cache
file that exists but cannot be read, a non-refresh load runs no
aggregation pass, leaves the cache alone and returns None, which the
caller then unwraps into a crash; the unreadable cache is not treated as
a cache miss. -/
theorem C5_counterexample :
    load false (some "xml") CacheFile.unreadable (some [v01]) =
      ⟨LoadResult.noneRes, CacheFile.unreadable, false⟩ ∧
    (load false (some "xml") CacheFile.unreadable (some [v01])).fetched
      = false ∧
    load_unwrap (load false (some "xml") CacheFile.unreadable (some [v01]))
      = none := by
  decide

/-- C5, amended: only a missing cache file (failing metadata probe) is
treated as a cache miss on a non-refresh load, triggering the aggregation
pass whose result overwrites the cache and is returned; an existing but
unreadable cache triggers no aggregation, and load returns None, which
the caller unwraps into a crash. -/
theorem C5_amended : ∀ (xml : String) (f : List Video),
    load false (some xml) CacheFile.missing (some f) =
      ⟨LoadResult.ok f, CacheFile.stored (some f), true⟩ ∧
    load false (some xml) CacheFile.unreadable (some f) =
      ⟨LoadResult.noneRes, CacheFile.unreadable, false⟩ ∧
    load_unwrap (load false (some xml) CacheFile.unreadable (some f))
      = none := by
  intro xml f
  exact ⟨rfl, rfl, rfl⟩

/-- C6: a non-refresh load with an existing cache file runs no aggregation
pass and does not rewrite the cache, and when the cache content
deserializes, exactly that content is returned. -/
theorem C6_cache_read_only : ∀ (xml : String) (fetchRes : Option (List Video))
    (c : CacheFile), c ≠ CacheFile.missing →
    (load false (some xml) c fetchRes).fetched = false ∧
    (load false (some xml) c fetchRes).cache = c ∧
    ∀ vs, c = CacheFile.stored (some vs) →
      (load false (some xml) c fetchRes).result = LoadResult.ok vs := by
  intro xml fr c hc
  cases c with
  | missing => exact absurd rfl hc
  | unreadable =>
    refine ⟨rfl, rfl, ?_⟩
    intro vs hv
    cases hv
  | stored content =>
    cases content with
    | none =>
      refine ⟨rfl, rfl, ?_⟩
      intro vs hv
      injection hv with h2
      cases h2
    | some ws =>
      refine ⟨rfl, rfl, ?_⟩
      intro vs hv
      injection hv with h2
      injection h2 with h3
      subst h3
      rfl

/-- C6, witness at a concrete readable cache. -/
theorem C6_witness :
    (load false (some "x") (CacheFile.stored (some [v01])) (some [v02])).fetched
      = false ∧
    (load false (some "x") (CacheFile.stored (some [v01])) (some [v02])).cache
      = CacheFile.stored (some [v01]) ∧
    (load false (some "x") (CacheFile.stored (some [v01])) (some [v02])).result
      = LoadResult.ok [v01] := by
  have h := C6_cache_read_only "x" (some [v02])
    (CacheFile.stored (some [v01])) (by decide)
  exact ⟨h.1, h.2.1, h.2.2 [v01] rfl⟩

/-- Helper for C10: a successful render has a date cell for every row. -/
theorem print_videos_dates_mem : ∀ (l : List Video) (out : List String),
    print_videos_dates l = some out →
    ∀ v ∈ l, ∃ d, date_cell v.published = some d := by
  intro l
  induction l with
  | nil =>
    intro out _ v hv
    cases hv
  | cons x xs ih =>
    intro out h v hv
    simp only [print_videos_dates] at h
    cases hx : date_cell x.published with
    | none =>
      simp only [hx] at h
      cases h
    | some d =>
      cases hxs : print_videos_dates xs with
      | none =>
        simp only [hx, hxs] at h
        cases h
      | some ds =>
        rcases List.mem_cons.mp hv with rfl | hmem
        · exact ⟨d, hx⟩
        · exact ih ds hxs v hmem

/-- C10: rendering is total only under a precondition on dates. A
successful render requires, for every displayed entry, that the segment of
published before the first T be at least 10 bytes with character
boundaries at 5 and 10; an entry whose published field is the empty string
(what the fetcher stores when a feed entry lacks a published element)
makes the render fail instead of displaying the entry. -/
theorem C10_render_partiality :
    (∀ (toshow : List Video) (out : List String),
      print_videos_render toshow = some out →
      ∀ v ∈ toshow,
        10 ≤ utf8Len ((splitChars 'T' v.published.data).headD []) ∧
        isBoundary ((splitChars 'T' v.published.data).headD []) 5 = true ∧
        isBoundary ((splitChars 'T' v.published.data).headD []) 10 = true) ∧
    (∀ v : Video, v.published = "" → print_videos_render [v] = none) := by
  constructor
  · intro toshow out h v hv
    obtain ⟨d, hd⟩ := print_videos_dates_mem toshow.reverse out h v
      (List.mem_reverse.mpr hv)
    simp only [date_cell, byteSlice] at hd
    split at hd
    · rename_i hcond
      exact ⟨hcond.2.1, hcond.2.2.1, hcond.2.2.2⟩
    · simp at hd
  · intro v h
    have hd : date_cell v.published = none := by
      rw [h]; decide
    simp [print_videos_render, print_videos_dates, hd]

/-- C10, witness: a well-formed ISO-8601 published field renders, and its
date segment satisfies the precondition. -/
theorem C10_witness :
    10 ≤ utf8Len ((splitChars 'T' v01.published.data).headD []) ∧
    isBoundary ((splitChars 'T' v01.published.data).headD []) 5 = true ∧
    isBoundary ((splitChars 'T' v01.published.data).headD []) 10 = true :=
  C10_render_partiality.1 [v01] ["01-01"] (by decide) v01 (by simp)

end YTS
